import Mathlib

/-!
Shallow embedding of `DSPy_workflow/argumentative_extractor.py`.

The repository is a DSPy script: a two-stage pipeline (`ArgumentativeExtractor.forward`),
a metric function (`is_text_complete_and_correct`), a JSON training-set loader
(`load_trainset`), a `main` driver and an argparse command line.  The external
pieces (the two LM-backed predictors, the optimizer's `compile`, the JSON parser)
are modelled as function parameters / `Except` values; the repository's own code
is translated directly.  Python strings become Lean `String`s, Python string
operations (`split`, `strip`, `replace`, `lower`, `join`, substring `in`) are
modelled by explicit executable functions below, and Python exceptions become an
explicit `PyError` in `Except`.
-/

/-- Python exception values that the script can raise or propagate. -/
inductive PyError where
  | keyError (k : String)
  | typeError (msg : String)
  | attributeError (msg : String)
  | jsonDecodeError (msg : String)
  | apiError (msg : String)
deriving DecidableEq, Repr

/-- Parsed JSON values, the output of Python's `json.load`. -/
inductive Json where
  | null
  | bool (b : Bool)
  | num (n : Int)
  | str (s : String)
  | arr (elems : List Json)
  | obj (fields : List (String × Json))

/-- Whether a JSON value is an object (a Python mapping after parsing). -/
def Json.isObj : Json → Bool
  | .obj _ => true
  | _ => false

/-- Field list of a JSON object (`[]` for non-objects). -/
def Json.objFields : Json → List (String × Json)
  | .obj fs => fs
  | _ => []

/-- A `dspy.Example`: the key/value pairs passed as `**sample`. -/
abbrev Example := List (String × Json)

/-- Key lookup in a field list, as Python dict subscripting / `dspy.Example` access. -/
def lookupField (fs : List (String × Json)) (k : String) : Option Json :=
  (fs.find? (fun p => p.1 == k)).map (·.2)

/-- A `dspy.Prediction` as built by `ArgumentativeExtractor.forward`:
four optional text fields. -/
structure Prediction where
  topic_sentence : Option String
  evidence : Option String
  analysis : Option String
  tieback_or_transition : Option String

/-- The structure extractor's output: the four declared output fields of the
`ArgumentativeStructure` signature, one string each. -/
structure ExtractionResult where
  topic_sentence : String
  evidence : String
  analysis : String
  tieback_or_transition : String

/-! ## Python string operations -/

/-- Python `str.split(a)` for a one-character separator, on character lists:
splits on every occurrence, keeping empty pieces. -/
def splitOnChar (a : Char) : List Char → List (List Char)
  | [] => [[]]
  | c :: rest =>
    if c = a then [] :: splitOnChar a rest
    else
      match splitOnChar a rest with
      | [] => [[c]]
      | r :: rs => (c :: r) :: rs

/-- Python `str.split(ab)` for a two-character separator, on character lists. -/
def splitOnPair (a b : Char) : List Char → List (List Char)
  | [] => [[]]
  | [c] => [[c]]
  | c :: d :: rest =>
    if c = a ∧ d = b then [] :: splitOnPair a b rest
    else
      match splitOnPair a b (d :: rest) with
      | [] => [[c]]
      | r :: rs => (c :: r) :: rs

/-- Python `', '.join` on character lists. -/
def joinCS : List (List Char) → List Char
  | [] => []
  | [p] => p
  | p :: ps => p ++ ',' :: ' ' :: joinCS ps

/-- Characters that Python `str.strip()` removes. -/
def pyIsSpace (c : Char) : Bool :=
  c = ' ' || c = '\t' || c = '\n' || c = '\r' || c = '\x0b' || c = '\x0c'

/-- Python `str.strip()` on character lists. -/
def pyStripL (l : List Char) : List Char :=
  ((l.dropWhile pyIsSpace).reverse.dropWhile pyIsSpace).reverse

/-- Python `str.split(a)` for a one-character separator. -/
def pySplitChar (a : Char) (s : String) : List String :=
  (splitOnChar a s.data).map String.mk

/-- Python `str.split(', ')`. -/
def pySplitCommaSpace (s : String) : List String :=
  (splitOnPair ',' ' ' s.data).map String.mk

/-- Python `', '.join`. -/
def joinCommaSpace (parts : List String) : String :=
  String.mk (joinCS (parts.map String.data))

/-- Python `str.strip()`. -/
def pyStrip (s : String) : String := String.mk (pyStripL s.data)

/-- Python `str.replace(" ", "")`: removes every space character. -/
def removeSpaces (s : String) : String :=
  String.mk (s.data.filter (fun c => !(c = ' ')))

/-- Python `str.lower()` (ASCII, which covers the strings at stake). -/
def pyLower (s : String) : String := String.mk (s.data.map Char.toLower)

/-- Substring occurrence on character lists (Python `needle in haystack`). -/
def containsSub (needle hay : List Char) : Bool :=
  (List.range (hay.length + 1)).any (fun i => needle.isPrefixOf (hay.drop i))

/-- Python substring test `needle in hay`. -/
def strContainsSub (needle hay : String) : Bool := containsSub needle.data hay.data

/-- Insertion of a string into a sorted list (helper for `pySortedStr`). -/
def insertStr (x : String) : List String → List String
  | [] => [x]
  | y :: ys => if x ≤ y then x :: y :: ys else y :: insertStr x ys

/-- Python `sorted` on lists of strings (insertion sort; a sorted permutation,
which is all the metric's use of `sorted` depends on). -/
def pySortedStr : List String → List String
  | [] => []
  | x :: xs => insertStr x (pySortedStr xs)

/-! ## `ArgumentativeExtractor.forward` -/

/-- The comma-separated missing components, spaces removed:
`completeness_result.missing_components.replace(" ", "").split(",")`. -/
def mcParts (mc : String) : List String :=
  pySplitChar ',' (removeSpaces mc)

/-- The diagnostic message built in `forward`'s incomplete branch. -/
def mkIncompleteMessage (mc : String) : String :=
  "The provided text is incomplete. The following components are missing: "
    ++ joinCommaSpace (mcParts mc) ++ "."

/-- Wrapping of the structure extractor's result as the returned prediction. -/
def predictionOfExtraction (r : ExtractionResult) : Prediction :=
  { topic_sentence := some r.topic_sentence
    evidence := some r.evidence
    analysis := some r.analysis
    tieback_or_transition := some r.tieback_or_transition }

/-- The prediction returned in `forward`'s incomplete branch: three `None`
fields and the diagnostic message in `tieback_or_transition`. -/
def incompletePrediction (mc : String) : Prediction :=
  { topic_sentence := none
    evidence := none
    analysis := none
    tieback_or_transition := some (mkIncompleteMessage mc) }

/-- `ArgumentativeExtractor.forward`.  The two LM-backed predictors are external
collaborators, passed as fallible functions: `classify` is the completeness
classifier (returning its `missing_components` string) and `extract` the
structure extractor. -/
def forward (classify : String → Except PyError String)
    (extract : String → Except PyError ExtractionResult)
    (text : String) : Except PyError Prediction :=
  match classify text with
  | .error e => .error e
  | .ok completeness =>
    if strContainsSub "all_present" (pyLower completeness) then
      match extract text with
      | .error e => .error e
      | .ok r => .ok (predictionOfExtraction r)
    else
      .ok (incompletePrediction completeness)

/-! ## The metric `is_text_complete_and_correct` -/

/-- The metric's parse of the predicted missing components out of the
`tieback_or_transition` message:
`prediction.tieback_or_transition.split(':')[-1].strip().split(', ')`. -/
def parsePredictedMissing (t : String) : List String :=
  pySplitCommaSpace (pyStrip ((pySplitChar ':' t).getLastD ""))

/-- `is_text_complete_and_correct`.  In the branch without a `"missing"` key the
source computes `all(m1, m2, m3, m4)`: Python's `all` takes one iterable, so
after the four arguments are evaluated left to right (raising `KeyError` at the
first absent example field) the call itself raises `TypeError`. -/
def is_text_complete_and_correct (ex : Example) (prediction : Prediction) :
    Except PyError Bool :=
  match lookupField ex "missing" with
  | some (Json.str m) =>
    match prediction.tieback_or_transition with
    | some t =>
      let expected_missing_parts := pySortedStr (pySplitChar ',' m)
      let predicted_missing_parts := pySortedStr (parsePredictedMissing t)
      Except.ok (expected_missing_parts.all (fun part => predicted_missing_parts.contains part))
    | none => Except.error (PyError.attributeError "NoneType object has no attribute split")
  | some _ => Except.error (PyError.attributeError "object has no attribute split")
  | none =>
    match lookupField ex "topic_sentence" with
    | none => Except.error (PyError.keyError "topic_sentence")
    | some _ =>
      match lookupField ex "evidence" with
      | none => Except.error (PyError.keyError "evidence")
      | some _ =>
        match lookupField ex "analysis" with
        | none => Except.error (PyError.keyError "analysis")
        | some _ =>
          match lookupField ex "tieback_or_transition" with
          | none => Except.error (PyError.keyError "tieback_or_transition")
          | some _ =>
            Except.error (PyError.typeError "all() takes exactly one argument (4 given)")

/-! ## `load_trainset` -/

/-- Python iteration over a parsed-JSON value: strings iterate over
one-character strings, arrays over elements, objects over their keys; other
values are not iterable. -/
def pyIterElems : Json → Option (List Json)
  | .str s => some (s.data.map (fun c => Json.str (String.mk [c])))
  | .arr l => some l
  | .obj fs => some (fs.map (fun p => Json.str p.1))
  | _ => none

/-- `data["samples"]` on the parsed JSON value. -/
def getSamples : Json → Except PyError Json
  | .obj fs =>
    match lookupField fs "samples" with
    | some v => .ok v
    | none => .error (.keyError "samples")
  | .arr _ => .error (.typeError "list indices must be integers or slices, not str")
  | .str _ => .error (.typeError "string indices must be integers")
  | _ => .error (.typeError "object is not subscriptable")

/-- The loader's loop body: `dspy.Example(**sample)` requires each sample to be
a mapping and keeps its key/value pairs. -/
def buildExamples : List Json → Except PyError (List Example)
  | [] => .ok []
  | s :: rest =>
    match s with
    | .obj fs =>
      match buildExamples rest with
      | .ok es => .ok (fs :: es)
      | .error e => .error e
    | _ => .error (.typeError "argument after ** must be a mapping")

/-- Building the training set from the value of the `"samples"` key alone. -/
def loadFromSamples (v : Json) : Except PyError (List Example) :=
  match pyIterElems v with
  | none => .error (.typeError "object is not iterable")
  | some es => buildExamples es

/-- `load_trainset` applied to the parsed JSON (`json.load` modelled as the
`Except` argument: a parse failure is passed through untouched). -/
def load_trainset (parsed : Except PyError Json) : Except PyError (List Example) :=
  match parsed with
  | .error e => .error e
  | .ok data =>
    match getSamples data with
    | .error e => .error e
    | .ok v => loadFromSamples v

/-! ## `main` -/

/-- The script's `main`: load the training set, pick the optimizer by name,
compile.  The optimizer's `compile` (an external search over LM calls) is a
parameter; its result type is abstract. -/
def script_main {α : Type} (parsed : Except PyError Json) (optimizer_type : String)
    (compile : String → List Example → Except PyError α) : Except PyError α :=
  match load_trainset parsed with
  | .error e => .error e
  | .ok trainset =>
    compile (if optimizer_type = "BootstrapFewShot" then "BootstrapFewShot" else "MIPROv2")
      trainset

/-! ## The command line -/

/-- The parsed command line: the positional `json_file` and the `--optimizer`
value (its argparse default is `"MIPROv2"`). -/
structure CliArgs where
  json_file : String
  optimizer : String

/-- The `choices` list of the `--optimizer` flag. -/
def optimizerChoices : List String := ["BootstrapFewShot", "MIPROv2"]

/-- Prefix test on strings, via character lists. -/
def strStarts (p s : String) : Bool := p.data.isPrefixOf s.data

/-- State of the argparse scan over the argument vector. -/
inductive ArgState where
  | normal (pos : List String) (opt : Option String)
  | awaitingValue (pos : List String) (opt : Option String)
  | failed (msg : String)

/-- One argparse step: `--optimizer` awaits a value, `--optimizer=v` and a
pending value are checked against `choices`, unknown `--` tokens are rejected,
anything else is a positional. -/
def stepArg : ArgState → String → ArgState
  | .failed m, _ => .failed m
  | .awaitingValue pos _, t =>
    if optimizerChoices.contains t then .normal pos (some t)
    else .failed "argument --optimizer: invalid choice"
  | .normal pos opt, t =>
    if t = "--optimizer" then .awaitingValue pos opt
    else if strStarts "--optimizer=" t then
      let v := t.drop ("--optimizer=".length)
      if optimizerChoices.contains v then .normal pos (some v)
      else .failed "argument --optimizer: invalid choice"
    else if strStarts "--" t then .failed ("unrecognized arguments: " ++ t)
    else .normal (pos ++ [t]) opt

/-- The argparse configuration of the script: one required positional
`json_file` and one optional `--optimizer` flag with two choices. -/
def parse_args (argv : List String) : Except String CliArgs :=
  match argv.foldl stepArg (.normal [] none) with
  | .failed m => .error m
  | .awaitingValue _ _ => .error "argument --optimizer: expected one argument"
  | .normal pos opt =>
    match pos with
    | [f] => .ok { json_file := f, optimizer := opt.getD "MIPROv2" }
    | [] => .error "the following arguments are required: json_file"
    | _ => .error "unrecognized arguments"

/-! ## Helper lemmas -/

lemma mem_insertStr (x y : String) (l : List String) :
    x ∈ insertStr y l ↔ x = y ∨ x ∈ l := by
  induction l with
  | nil => simp [insertStr]
  | cons z zs ih =>
    by_cases h : y ≤ z
    · simp [insertStr, h]
    · simp [insertStr, h, ih]
      tauto

lemma mem_pySortedStr (x : String) (l : List String) :
    x ∈ pySortedStr l ↔ x ∈ l := by
  induction l with
  | nil => simp [pySortedStr]
  | cons z zs ih => simp [pySortedStr, mem_insertStr, ih]

lemma contains_eq_true_iff (l : List String) (x : String) :
    l.contains x = true ↔ x ∈ l := by
  simp [List.contains]

/-! ## Claim theorems -/

/-- C1: for every example with a `"missing"` key (a string, as in the training
data) and every prediction whose `tieback_or_transition` is a string, the metric
returns `True` exactly when every expected missing-component label — the
comma-separated parts of `example["missing"]` — appears in the list of missing
components parsed from the prediction's `tieback_or_transition`, independently
of order (the `sorted` calls only reorder). -/
theorem metric_missing_iff (ex : Example) (pred : Prediction) (m t : String)
    (hm : lookupField ex "missing" = some (Json.str m))
    (ht : pred.tieback_or_transition = some t) :
    is_text_complete_and_correct ex pred = Except.ok true ↔
      ∀ part ∈ pySplitChar ',' m, part ∈ parsePredictedMissing t := by
  unfold is_text_complete_and_correct
  rw [hm, ht]
  simp only [Except.ok.injEq, List.all_eq_true]
  constructor
  · intro h part hp
    have h2 := h part (mem_pySortedStr part _ |>.mpr hp)
    exact (mem_pySortedStr part _).mp ((contains_eq_true_iff _ part).mp h2)
  · intro h part hp
    exact (contains_eq_true_iff _ part).mpr
      ((mem_pySortedStr part _).mpr (h part ((mem_pySortedStr part _).mp hp)))

/-- Witness for C1 at a concrete example and prediction. -/
theorem metric_missing_iff_witness :
    is_text_complete_and_correct
        [("text", Json.str "Dogs are the best pets."), ("missing", Json.str "evidence,analysis")]
        { topic_sentence := none, evidence := none, analysis := none,
          tieback_or_transition := some "The provided text is incomplete. The following components are missing: analysis, evidence, extra." } =
      Except.ok true :=
  (metric_missing_iff
      [("text", Json.str "Dogs are the best pets."), ("missing", Json.str "evidence,analysis")]
      { topic_sentence := none, evidence := none, analysis := none,
        tieback_or_transition := some "The provided text is incomplete. The following components are missing: analysis, evidence, extra." }
      "evidence,analysis"
      "The provided text is incomplete. The following components are missing: analysis, evidence, extra."
      rfl rfl).mpr (by decide)

/-- The concrete failing input for C2: an example without a `"missing"` key and
with all four expected extraction fields present. -/
def completeExample : Example :=
  [("text", Json.str "Exercise improves mental health."),
   ("topic_sentence", Json.str "a"), ("evidence", Json.str "b"),
   ("analysis", Json.str "c"), ("tieback_or_transition", Json.str "d")]

/-- C2 (code bug): on every example without a `"missing"` key the metric's else
branch calls Python's one-argument builtin `all` with four positional
arguments, so instead of returning whether all four extracted fields
exact-match, the call raises `TypeError` for every prediction. -/
theorem metric_else_branch_type_error (pred : Prediction) :
    is_text_complete_and_correct completeExample pred =
      Except.error (PyError.typeError "all() takes exactly one argument (4 given)") := by
  rfl

/-- C3: `forward` first runs the completeness classifier; when its
`missing_components` output reports the text complete the structure extractor's
four-field result is returned, and otherwise no extraction is performed — the
result is the fixed diagnostic prediction, whatever the extractor would do. -/
theorem forward_two_stage (classify : String → Except PyError String)
    (extract : String → Except PyError ExtractionResult) (text mc : String)
    (h : classify text = Except.ok mc) :
    (strContainsSub "all_present" (pyLower mc) = true →
        forward classify extract text = (extract text).map predictionOfExtraction) ∧
    (strContainsSub "all_present" (pyLower mc) = false →
        forward classify extract text = Except.ok (incompletePrediction mc)) := by
  unfold forward
  rw [h]
  dsimp only
  constructor
  · intro hc
    rw [if_pos hc]
    cases extract text <;> rfl
  · intro hc
    rw [if_neg (by simp [hc])]

/-- Witness for C3: an incomplete classification returns the diagnostic
prediction without consulting the extractor. -/
theorem forward_two_stage_witness :
    forward (fun _ => Except.ok "evidence") (fun _ => Except.ok ⟨"t", "e", "a", "b"⟩) "Dogs." =
      Except.ok (incompletePrediction "evidence") :=
  (forward_two_stage (fun _ => Except.ok "evidence")
      (fun _ => Except.ok ⟨"t", "e", "a", "b"⟩) "Dogs." "evidence" rfl).2 (by decide)

/-- C4: every prediction `forward` returns either has all four fields present
(the extraction case) or has the three first fields absent and a message in
`tieback_or_transition` (the diagnostic case). -/
theorem forward_prediction_shape (classify : String → Except PyError String)
    (extract : String → Except PyError ExtractionResult) (text : String)
    (p : Prediction) (h : forward classify extract text = Except.ok p) :
    (p.topic_sentence.isSome ∧ p.evidence.isSome ∧
        p.analysis.isSome ∧ p.tieback_or_transition.isSome) ∨
    (p.topic_sentence = none ∧ p.evidence = none ∧ p.analysis = none ∧
        ∃ msg, p.tieback_or_transition = some msg) := by
  unfold forward at h
  cases hc : classify text with
  | error e => rw [hc] at h; cases h
  | ok mc =>
    rw [hc] at h
    dsimp only at h
    by_cases hb : strContainsSub "all_present" (pyLower mc) = true
    · rw [if_pos hb] at h
      cases he : extract text with
      | error e => rw [he] at h; cases h
      | ok r =>
        rw [he] at h
        cases h
        left
        exact ⟨rfl, rfl, rfl, rfl⟩
    · rw [if_neg hb] at h
      cases h
      right
      exact ⟨rfl, rfl, rfl, mkIncompleteMessage mc, rfl⟩

/-- Witness for C4 at a concrete run of `forward`. -/
theorem forward_prediction_shape_witness :
    ((incompletePrediction "evidence").topic_sentence.isSome ∧
        (incompletePrediction "evidence").evidence.isSome ∧
        (incompletePrediction "evidence").analysis.isSome ∧
        (incompletePrediction "evidence").tieback_or_transition.isSome) ∨
    ((incompletePrediction "evidence").topic_sentence = none ∧
        (incompletePrediction "evidence").evidence = none ∧
        (incompletePrediction "evidence").analysis = none ∧
        ∃ msg, (incompletePrediction "evidence").tieback_or_transition = some msg) :=
  forward_prediction_shape (fun _ => Except.ok "evidence")
    (fun _ => Except.ok ⟨"t", "e", "a", "b"⟩) "Dogs." (incompletePrediction "evidence") rfl

/-- C5: no function of the script catches or translates failures — a JSON
parse error passes through `load_trainset` untouched, a missing example field
surfaces from the metric as its `KeyError`, a classifier or extractor failure
surfaces from `forward` unchanged, and `main` passes a loading failure on. -/
theorem failures_propagate :
    (∀ e, load_trainset (Except.error e) = Except.error e) ∧
    (∀ ex pred, lookupField ex "missing" = none → lookupField ex "topic_sentence" = none →
        is_text_complete_and_correct ex pred = Except.error (PyError.keyError "topic_sentence")) ∧
    (∀ classify extract text e, classify text = Except.error e →
        forward classify extract text = Except.error e) ∧
    (∀ classify extract text mc e, classify text = Except.ok mc →
        strContainsSub "all_present" (pyLower mc) = true →
        extract text = Except.error e →
        forward classify extract text = Except.error e) ∧
    (∀ (e : PyError) (opt : String) (compile : String → List Example → Except PyError Nat),
        script_main (Except.error e) opt compile = Except.error e) := by
  refine ⟨fun e => rfl, ?_, ?_, ?_, fun e opt compile => rfl⟩
  · intro ex pred hm ht
    unfold is_text_complete_and_correct
    rw [hm, ht]
  · intro classify extract text e h
    unfold forward
    rw [h]
  · intro classify extract text mc e h hb he
    unfold forward
    rw [h]
    dsimp only
    rw [if_pos hb, he]

/-- Witness for C5 at concrete inputs. -/
theorem failures_propagate_witness :
    is_text_complete_and_correct [("text", Json.str "x")]
        { topic_sentence := none, evidence := none, analysis := none,
          tieback_or_transition := none } =
      Except.error (PyError.keyError "topic_sentence") ∧
    forward (fun _ => Except.error (PyError.apiError "boom"))
        (fun _ => Except.ok ⟨"t", "e", "a", "b"⟩) "txt" =
      Except.error (PyError.apiError "boom") :=
  ⟨failures_propagate.2.1 [("text", Json.str "x")]
      { topic_sentence := none, evidence := none, analysis := none,
        tieback_or_transition := none } rfl rfl,
   failures_propagate.2.2.1 (fun _ => Except.error (PyError.apiError "boom"))
      (fun _ => Except.ok ⟨"t", "e", "a", "b"⟩) "txt" (PyError.apiError "boom") rfl⟩

/-- C8: the completeness decision is a case-insensitive substring test —
extraction runs exactly when `"all_present"` occurs anywhere in the lowercased
classifier output, for example also in `"All_Present, evidence"`, which is not
equal to `"all_present"`. -/
theorem forward_substring_decision :
    (∀ (mc text : String) (extract : String → Except PyError ExtractionResult),
        strContainsSub "all_present" (pyLower mc) = true →
        forward (fun _ => Except.ok mc) extract text = (extract text).map predictionOfExtraction) ∧
    (∀ (mc text : String) (extract : String → Except PyError ExtractionResult),
        strContainsSub "all_present" (pyLower mc) = false →
        forward (fun _ => Except.ok mc) extract text = Except.ok (incompletePrediction mc)) ∧
    strContainsSub "all_present" (pyLower "All_Present, evidence") = true ∧
    "All_Present, evidence" ≠ "all_present" := by
  refine ⟨?_, ?_, by decide, by decide⟩
  · intro mc text extract hb
    unfold forward
    dsimp only
    rw [if_pos hb]
    cases extract text <;> rfl
  · intro mc text extract hb
    unfold forward
    dsimp only
    rw [if_neg (by simp [hb])]

/-- Witness for C8: the mixed-case, comma-bearing classifier output still
triggers extraction. -/
theorem forward_substring_decision_witness :
    forward (fun _ => Except.ok "All_Present, evidence")
        (fun _ => Except.ok ⟨"t", "e", "a", "b"⟩) "txt" =
      Except.ok (predictionOfExtraction ⟨"t", "e", "a", "b"⟩) :=
  forward_substring_decision.1 "All_Present, evidence" "txt"
    (fun _ => Except.ok ⟨"t", "e", "a", "b"⟩) (by decide)

/-- Invariant of the argparse scan: any stored optimizer value is one of the
two declared choices. -/
def argOptOk : ArgState → Prop
  | .normal _ opt => opt = none ∨ opt = some "BootstrapFewShot" ∨ opt = some "MIPROv2"
  | .awaitingValue _ opt => opt = none ∨ opt = some "BootstrapFewShot" ∨ opt = some "MIPROv2"
  | .failed _ => True

lemma stepArg_optOk (s : ArgState) (t : String) (h : argOptOk s) :
    argOptOk (stepArg s t) := by
  cases s with
  | failed m => exact trivial
  | awaitingValue pos opt =>
    unfold stepArg
    dsimp only
    by_cases hc : optimizerChoices.contains t = true
    · rw [if_pos hc]
      have ht : t ∈ optimizerChoices := (contains_eq_true_iff _ t).mp hc
      simp only [optimizerChoices, List.mem_cons, List.mem_singleton] at ht
      rcases ht with h1 | h1 | h1
      · exact Or.inr (Or.inl (by rw [h1]))
      · exact Or.inr (Or.inr (by rw [h1]))
      · cases h1
    · rw [if_neg hc]
      exact trivial
  | normal pos opt =>
    unfold stepArg
    dsimp only
    by_cases h1 : t = "--optimizer"
    · rw [if_pos h1]; exact h
    · rw [if_neg h1]
      by_cases h2 : strStarts "--optimizer=" t = true
      · rw [if_pos h2]
        by_cases hc : optimizerChoices.contains (t.drop ("--optimizer=".length)) = true
        · rw [if_pos hc]
          have ht := (contains_eq_true_iff _ _).mp hc
          simp only [optimizerChoices, List.mem_cons, List.mem_singleton] at ht
          rcases ht with hv | hv | hv
          · exact Or.inr (Or.inl (by rw [hv]))
          · exact Or.inr (Or.inr (by rw [hv]))
          · cases hv
        · rw [if_neg hc]; exact trivial
      · rw [if_neg h2]
        by_cases h3 : strStarts "--" t = true
        · rw [if_pos h3]; exact trivial
        · rw [if_neg h3]; exact h

lemma foldl_stepArg_optOk (argv : List String) (s : ArgState) (h : argOptOk s) :
    argOptOk (argv.foldl stepArg s) := by
  induction argv generalizing s with
  | nil => exact h
  | cons t rest ih => exact ih _ (stepArg_optOk s t h)

lemma strStarts_dd_of_optimizer_eq (f : String) (h : strStarts "--optimizer=" f = true) :
    strStarts "--" f = true := by
  unfold strStarts at h ⊢
  rw [List.isPrefixOf_iff_prefix] at h ⊢
  exact List.IsPrefix.trans (by decide) h

/-- C6: the command line accepts one positional `json_file` argument and one
optional `--optimizer` flag; every successful parse yields one of the two
declared optimizer choices, a plain single argument parses as the file with
the `MIPROv2` default, any other optimizer value is rejected at parsing, and
zero or two positionals are rejected. -/
theorem cli_interface :
    (∀ argv a, parse_args argv = Except.ok a →
        a.optimizer = "BootstrapFewShot" ∨ a.optimizer = "MIPROv2") ∧
    (∀ f, strStarts "--" f = false →
        parse_args [f] = Except.ok { json_file := f, optimizer := "MIPROv2" }) ∧
    (∀ v, optimizerChoices.contains v = false →
        parse_args ["train.json", "--optimizer", v] =
          Except.error "argument --optimizer: invalid choice") ∧
    parse_args [] = Except.error "the following arguments are required: json_file" ∧
    parse_args ["a.json", "b.json"] = Except.error "unrecognized arguments" := by
  refine ⟨?_, ?_, ?_, rfl, rfl⟩
  · intro argv a h
    unfold parse_args at h
    have hinv := foldl_stepArg_optOk argv (.normal [] none) (Or.inl rfl)
    cases hfold : argv.foldl stepArg (.normal [] none) with
    | failed m => rw [hfold] at h; cases h
    | awaitingValue pos opt => rw [hfold] at h; cases h
    | normal pos opt =>
      rw [hfold] at h
      rw [hfold] at hinv
      cases pos with
      | nil => cases h
      | cons f rest =>
        cases rest with
        | nil =>
          cases h
          rcases hinv with h1 | h1 | h1 <;> rw [h1]
          · exact Or.inr rfl
          · exact Or.inl rfl
          · exact Or.inr rfl
        | cons g rest2 => cases h
  · intro f hf
    have h1 : f = "--optimizer" → False := by
      intro he
      rw [he] at hf
      exact absurd hf (by decide)
    have h2 : strStarts "--optimizer=" f = false := by
      cases hs : strStarts "--optimizer=" f
      · rfl
      · rw [strStarts_dd_of_optimizer_eq f hs] at hf; cases hf
    unfold parse_args
    simp only [List.foldl]
    unfold stepArg
    dsimp only
    rw [if_neg h1, if_neg (by simp [h2]), if_neg (by simp [hf])]
    rfl
  · intro v hv
    have h1 : stepArg (.normal [] none) "train.json" = .normal ["train.json"] none := by rfl
    have h2 : stepArg (.normal ["train.json"] none) "--optimizer" =
        .awaitingValue ["train.json"] none := by rfl
    unfold parse_args
    simp only [List.foldl, h1, h2]
    unfold stepArg
    dsimp only
    rw [if_neg (fun hcontra => Bool.false_ne_true (hv ▸ hcontra))]

/-- Witness for C6 at concrete command lines. -/
theorem cli_interface_witness :
    ("MIPROv2" = "BootstrapFewShot" ∨ "MIPROv2" = "MIPROv2") ∧
    parse_args ["train.json"] = Except.ok { json_file := "train.json", optimizer := "MIPROv2" } ∧
    parse_args ["train.json", "--optimizer", "Adam"] =
      Except.error "argument --optimizer: invalid choice" :=
  ⟨cli_interface.1 ["train.json"] { json_file := "train.json", optimizer := "MIPROv2" } rfl,
   cli_interface.2.1 "train.json" rfl,
   cli_interface.2.2.1 "Adam" rfl⟩

/-! ## `load_trainset` lemmas -/

lemma buildExamples_isOk (es : List Json) :
    (buildExamples es).isOk = true ↔ ∀ e ∈ es, e.isObj = true := by
  induction es with
  | nil => simp [buildExamples, Except.isOk, Except.toBool]
  | cons s rest ih =>
    cases s with
    | obj fs =>
      cases hb : buildExamples rest with
      | ok es2 =>
        rw [hb] at ih
        simp only [buildExamples, hb]
        simp [Except.isOk, Except.toBool, Json.isObj] at ih ⊢
        exact ih
      | error e =>
        rw [hb] at ih
        simp only [buildExamples, hb]
        simp [Except.isOk, Except.toBool, Json.isObj] at ih ⊢
        exact ih
    | null => simp [buildExamples, Except.isOk, Except.toBool, Json.isObj]
    | bool b => simp [buildExamples, Except.isOk, Except.toBool, Json.isObj]
    | num n => simp [buildExamples, Except.isOk, Except.toBool, Json.isObj]
    | str s2 => simp [buildExamples, Except.isOk, Except.toBool, Json.isObj]
    | arr l => simp [buildExamples, Except.isOk, Except.toBool, Json.isObj]

lemma buildExamples_all_obj (es : List Json) (h : ∀ e ∈ es, e.isObj = true) :
    buildExamples es = Except.ok (es.map Json.objFields) := by
  induction es with
  | nil => rfl
  | cons s rest ih =>
    have hs := h s (List.mem_cons_self s rest)
    have hr := ih (fun e he => h e (List.mem_cons_of_mem s he))
    cases s with
    | obj fs =>
      simp only [buildExamples, hr, List.map, Json.objFields]
    | null => cases hs
    | bool b => cases hs
    | num n => cases hs
    | str s2 => cases hs
    | arr l => cases hs

/-- C7 counterexample: a parsed JSON object whose `"samples"` key holds an
iterable value (an array) on which `load_trainset` nevertheless fails, because
the array's element is not a mapping — refuting "succeeds exactly when the
parsed JSON has a `samples` key whose value is iterable". -/
theorem load_trainset_iterable_not_sufficient :
    lookupField [("samples", Json.arr [Json.num 0])] "samples" = some (Json.arr [Json.num 0]) ∧
    (pyIterElems (Json.arr [Json.num 0])).isSome = true ∧
    (load_trainset (Except.ok (Json.obj [("samples", Json.arr [Json.num 0])]))).isOk = false :=
  ⟨rfl, rfl, rfl⟩

/-- C7 (amended): when the parsed JSON is an object with a `"samples"` key,
`load_trainset` is determined by that key's value alone — other top-level keys
are ignored — and it succeeds exactly when that value is iterable and every
iterated element is a mapping. -/
theorem load_trainset_success_condition (fs : List (String × Json)) (v : Json)
    (h : lookupField fs "samples" = some v) :
    load_trainset (Except.ok (Json.obj fs)) = loadFromSamples v ∧
    ((load_trainset (Except.ok (Json.obj fs))).isOk = true ↔
      ∃ es, pyIterElems v = some es ∧ ∀ e ∈ es, e.isObj = true) := by
  have h0 : load_trainset (Except.ok (Json.obj fs)) = loadFromSamples v := by
    unfold load_trainset getSamples
    dsimp only
    rw [h]
  refine ⟨h0, ?_⟩
  rw [h0]
  unfold loadFromSamples
  cases hv : pyIterElems v with
  | none => simp [Except.isOk, Except.toBool]
  | some es => simp [buildExamples_isOk]

/-- Witness for the amended C7: a concrete file with an extra top-level key
and one record loads successfully. -/
theorem load_trainset_success_condition_witness :
    load_trainset (Except.ok (Json.obj
        [("version", Json.num 1),
         ("samples", Json.arr [Json.obj [("text", Json.str "t"), ("missing", Json.str "evidence")]])])) =
      loadFromSamples (Json.arr [Json.obj [("text", Json.str "t"), ("missing", Json.str "evidence")]]) :=
  (load_trainset_success_condition
      [("version", Json.num 1),
       ("samples", Json.arr [Json.obj [("text", Json.str "t"), ("missing", Json.str "evidence")]])]
      (Json.arr [Json.obj [("text", Json.str "t"), ("missing", Json.str "evidence")]]) rfl).1

/-- C10: for a parsed JSON object whose `"samples"` key holds an array of
records, `load_trainset` returns one example per record, in array order, each
example's fields being exactly the record's key/value pairs. -/
theorem load_trainset_maps_samples (fs : List (String × Json)) (l : List Json)
    (h1 : lookupField fs "samples" = some (Json.arr l))
    (h2 : ∀ j ∈ l, j.isObj = true) :
    load_trainset (Except.ok (Json.obj fs)) = Except.ok (l.map Json.objFields) := by
  unfold load_trainset getSamples
  dsimp only
  rw [h1]
  unfold loadFromSamples pyIterElems
  exact buildExamples_all_obj l h2

/-- Witness for C10 at a concrete two-record file. -/
theorem load_trainset_maps_samples_witness :
    load_trainset (Except.ok (Json.obj
        [("samples", Json.arr
            [Json.obj [("text", Json.str "a"), ("missing", Json.str "evidence")],
             Json.obj [("text", Json.str "b"), ("topic_sentence", Json.str "s")]])])) =
      Except.ok
        [[("text", Json.str "a"), ("missing", Json.str "evidence")],
         [("text", Json.str "b"), ("topic_sentence", Json.str "s")]] :=
  load_trainset_maps_samples
    [("samples", Json.arr
        [Json.obj [("text", Json.str "a"), ("missing", Json.str "evidence")],
         Json.obj [("text", Json.str "b"), ("topic_sentence", Json.str "s")]])]
    [Json.obj [("text", Json.str "a"), ("missing", Json.str "evidence")],
     Json.obj [("text", Json.str "b"), ("topic_sentence", Json.str "s")]]
    rfl (by intro j hj; simp at hj; rcases hj with h | h <;> rw [h] <;> rfl)

/-! ## Round-trip analysis of the diagnostic message (C9) -/

/-- The list with a period appended to its final element (the claim's statement
device for what the metric's parse recovers). -/
def withTrailingPeriodL : List (List Char) → List (List Char)
  | [] => []
  | [x] => [x ++ ['.']]
  | x :: xs => x :: withTrailingPeriodL xs

/-- String-level version of `withTrailingPeriodL`. -/
def withTrailingPeriod : List String → List String
  | [] => []
  | [x] => [x ++ "."]
  | x :: xs => x :: withTrailingPeriod xs

lemma splitOnChar_ne_nil (a : Char) (s : List Char) : splitOnChar a s ≠ [] := by
  cases s with
  | nil => simp [splitOnChar]
  | cons c rest =>
    by_cases h : c = a
    · simp [splitOnChar, h]
    · simp only [splitOnChar, if_neg h]
      cases splitOnChar a rest <;> simp

lemma splitOnChar_of_not_mem (a : Char) (xs : List Char) (h : a ∉ xs) :
    splitOnChar a xs = [xs] := by
  induction xs with
  | nil => rfl
  | cons x xs' ih =>
    have hx : ¬x = a := fun he => h (he ▸ List.mem_cons_self x xs')
    have hxs : a ∉ xs' := fun he => h (List.mem_cons_of_mem x he)
    simp only [splitOnChar, if_neg hx, ih hxs]

lemma splitOnChar_append (a : Char) (xs ys : List Char) (h : a ∉ xs) :
    splitOnChar a (xs ++ a :: ys) = xs :: splitOnChar a ys := by
  induction xs with
  | nil => simp [splitOnChar]
  | cons x xs' ih =>
    have hx : ¬x = a := fun he => h (he ▸ List.mem_cons_self x xs')
    have hxs : a ∉ xs' := fun he => h (List.mem_cons_of_mem x he)
    simp only [List.cons_append, splitOnChar, if_neg hx, List.append_eq]
    rw [ih hxs]

lemma mem_of_mem_splitOnChar (a : Char) (s p : List Char) (c : Char)
    (hp : p ∈ splitOnChar a s) (hc : c ∈ p) : c ∈ s := by
  induction s generalizing p with
  | nil =>
    simp [splitOnChar] at hp
    rw [hp] at hc
    cases hc
  | cons x s' ih =>
    by_cases hx : x = a
    · rw [splitOnChar, if_pos hx] at hp
      rcases List.mem_cons.mp hp with h1 | h1
      · rw [h1] at hc; cases hc
      · exact List.mem_cons_of_mem x (ih p h1 hc)
    · rw [splitOnChar, if_neg hx] at hp
      cases hs : splitOnChar a s' with
      | nil => exact absurd hs (splitOnChar_ne_nil a s')
      | cons r rs =>
        rw [hs] at hp
        rcases List.mem_cons.mp hp with h1 | h1
        · rw [h1] at hc
          rcases List.mem_cons.mp hc with h2 | h2
          · exact h2 ▸ List.mem_cons_self x s'
          · exact List.mem_cons_of_mem x (ih r (hs ▸ List.mem_cons_self r rs) h2)
        · exact List.mem_cons_of_mem x (ih p (hs ▸ List.mem_cons_of_mem r h1) hc)

lemma splitOnPair_of_not_mem (a b : Char) (p : List Char) (hb : b ∉ p) :
    splitOnPair a b p = [p] := by
  induction p with
  | nil => rfl
  | cons c tail ih =>
    cases tail with
    | nil => rfl
    | cons d rest =>
      have hd : ¬(c = a ∧ d = b) := fun hcd =>
        hb (hcd.2 ▸ List.mem_cons_of_mem c (List.mem_cons_self d rest))
      have htl : b ∉ d :: rest := fun he => hb (List.mem_cons_of_mem c he)
      simp only [splitOnPair, if_neg hd, ih htl]

lemma splitOnPair_append (a b : Char) (hab : a ≠ b) (p s : List Char) (hb : b ∉ p) :
    splitOnPair a b (p ++ a :: b :: s) = p :: splitOnPair a b s := by
  induction p with
  | nil => simp [splitOnPair]
  | cons c p' ih =>
    cases p' with
    | nil =>
      have hd : ¬(c = a ∧ a = b) := fun hcd => hab hcd.2
      simp only [List.cons_append, List.nil_append, splitOnPair, if_neg hd]
      simp
    | cons d p'' =>
      have hd : ¬(c = a ∧ d = b) := fun hcd =>
        hb (hcd.2 ▸ List.mem_cons_of_mem c (List.mem_cons_self d p''))
      have htl : b ∉ d :: p'' := fun he => hb (List.mem_cons_of_mem c he)
      have h2 := ih htl
      simp only [List.cons_append] at h2 ⊢
      simp only [splitOnPair, if_neg hd, h2]

lemma mem_joinCS (l : List (List Char)) (c : Char) (h : c ∈ joinCS l) :
    (∃ p ∈ l, c ∈ p) ∨ c = ',' ∨ c = ' ' := by
  induction l with
  | nil => cases h
  | cons p ps ih =>
    cases ps with
    | nil => exact Or.inl ⟨p, List.mem_cons_self p [], h⟩
    | cons q ps' =>
      rw [joinCS] at h
      rcases List.mem_append.mp h with h1 | h1
      · exact Or.inl ⟨p, List.mem_cons_self p (q :: ps'), h1⟩
      · rcases List.mem_cons.mp h1 with h2 | h2
        · exact Or.inr (Or.inl h2)
        · rcases List.mem_cons.mp h2 with h3 | h3
          · exact Or.inr (Or.inr h3)
          · rcases ih h3 with ⟨r, hr, hcr⟩ | h4
            · exact Or.inl ⟨r, List.mem_cons_of_mem p hr, hcr⟩
            · exact Or.inr h4
      exact fun hq => List.cons_ne_nil q ps' hq

lemma joinCS_head_not_space (l : List (List Char))
    (h : ∀ p ∈ l, ∀ c ∈ p, pyIsSpace c = false) :
    pyIsSpace ((joinCS l).headD '.') = false := by
  cases l with
  | nil => decide
  | cons p ps =>
    cases ps with
    | nil =>
      cases p with
      | nil => decide
      | cons c p' => exact h (c :: p') (List.mem_cons_self _ _) c (List.mem_cons_self c p')
    | cons q ps' =>
      cases p with
      | nil =>
        have h1 : (joinCS ([] :: q :: ps')).headD '.' = ',' := by simp [joinCS]
        rw [h1]
        decide
      | cons c p' =>
        have h1 : (joinCS ((c :: p') :: q :: ps')).headD '.' = c := by simp [joinCS]
        rw [h1]
        exact h (c :: p') (List.mem_cons_self _ _) c (List.mem_cons_self c p')

lemma pyStripL_space_concl (J : List Char) (hh : pyIsSpace (J.headD '.') = false) :
    pyStripL (' ' :: (J ++ ['.'])) = J ++ ['.'] := by
  unfold pyStripL
  have h1 : List.dropWhile pyIsSpace (' ' :: (J ++ ['.'])) = J ++ ['.'] := by
    rw [List.dropWhile_cons]
    simp only [show pyIsSpace ' ' = true by decide, if_true]
    cases J with
    | nil => decide
    | cons c J' =>
      rw [List.cons_append, List.dropWhile_cons]
      simp only [List.headD_cons] at hh
      simp [hh]
  rw [h1]
  have h2 : (J ++ ['.']).reverse = '.' :: J.reverse := by simp
  rw [h2, List.dropWhile_cons]
  simp only [show pyIsSpace '.' = false by decide, if_false]
  simp

lemma splitCS_joinCS (l : List (List Char)) (hsp : ∀ p ∈ l, ' ' ∉ p) (hne : l ≠ []) :
    splitOnPair ',' ' ' (joinCS l ++ ['.']) = withTrailingPeriodL l := by
  induction l with
  | nil => exact absurd rfl hne
  | cons p ps ih =>
    cases ps with
    | nil =>
      have hp : ' ' ∉ p ++ ['.'] := by
        intro hm
        rcases List.mem_append.mp hm with h1 | h1
        · exact hsp p (List.mem_cons_self p []) h1
        · simp at h1
      simp only [joinCS, withTrailingPeriodL]
      exact splitOnPair_of_not_mem ',' ' ' (p ++ ['.']) hp
    | cons q ps' =>
      have hp : ' ' ∉ p := hsp p (List.mem_cons_self p (q :: ps'))
      have hps : ∀ r ∈ q :: ps', ' ' ∉ r := fun r hr => hsp r (List.mem_cons_of_mem p hr)
      have hrec := ih hps (by simp)
      have hshape : joinCS (p :: q :: ps') ++ ['.'] =
          p ++ ',' :: ' ' :: (joinCS (q :: ps') ++ ['.']) := by
        simp [joinCS]
      rw [hshape, splitOnPair_append ',' ' ' (by decide) p _ hp, hrec]
      rfl

lemma map_mk_withTrailingPeriodL (l : List (List Char)) :
    (withTrailingPeriodL l).map String.mk = withTrailingPeriod (l.map String.mk) := by
  induction l with
  | nil => rfl
  | cons p ps ih =>
    cases ps with
    | nil => rfl
    | cons q ps' =>
      simp only [withTrailingPeriodL, List.map_cons, withTrailingPeriod]
      rw [ih, List.map_cons]

lemma strData_append (s t : String) : (s ++ t).data = s.data ++ t.data := by
  cases s
  cases t
  rfl

lemma withTrailingPeriod_eq (l : List String) (h : l ≠ []) :
    withTrailingPeriod l = l.dropLast ++ [l.getLastD "" ++ "."] := by
  induction l with
  | nil => exact absurd rfl h
  | cons x xs ih =>
    cases xs with
    | nil => rfl
    | cons y ys =>
      have h2 := ih (List.cons_ne_nil y ys)
      have hstep : withTrailingPeriod (x :: y :: ys) = x :: withTrailingPeriod (y :: ys) := rfl
      rw [hstep, h2]
      simp [List.getLastD_cons]

lemma not_mem_withTrailingPeriod (l : List String) (x : String)
    (hx : l.getLastD "" = x) (hnd : x ∉ l.dropLast) (hne : l ≠ []) :
    x ∉ withTrailingPeriod l := by
  rw [withTrailingPeriod_eq l hne]
  intro hmem
  rcases List.mem_append.mp hmem with h1 | h1
  · exact hnd h1
  · have h2 : x = l.getLastD "" ++ "." := by simpa using h1
    rw [hx] at h2
    have h3 := congrArg (fun s => s.data.length) h2
    simp only [strData_append, List.length_append] at h3
    simp at h3

lemma mcParts_chars (mc : String)
    (hclean : mc.data.all (fun c => !(c = ':') && (c = ' ' || !(pyIsSpace c))) = true) :
    ∀ p ∈ splitOnChar ',' (removeSpaces mc).data, ∀ c ∈ p,
      c ≠ ':' ∧ pyIsSpace c = false := by
  intro p hp c hc
  have hcf : c ∈ (removeSpaces mc).data := mem_of_mem_splitOnChar ',' _ p c hp hc
  have hcf2 : c ∈ mc.data.filter (fun c => !(c = ' ')) := hcf
  have hmem := List.mem_filter.mp hcf2
  have hsp : ¬(c = ' ') := by simpa using hmem.2
  have hcl := (List.all_eq_true.mp hclean) c hmem.1
  simp only [Bool.and_eq_true, Bool.or_eq_true, Bool.not_eq_true', decide_eq_true_eq,
    decide_eq_false_iff_not, Bool.not_eq_true] at hcl
  refine ⟨hcl.1, ?_⟩
  rcases hcl.2 with h1 | h1
  · exact absurd h1 hsp
  · exact h1

/-- C9 counterexample: for the classifier output `"a:b"` the list the metric
parses back out of the diagnostic message is `["b."]`, not the claimed
components-with-trailing-period `["a:b."]` — the colon in the component defeats
the `split(':')[-1]` parse. -/
theorem roundtrip_colon_counterexample :
    parsePredictedMissing (mkIncompleteMessage "a:b") = ["b."] ∧
    withTrailingPeriod (mcParts "a:b") = ["a:b."] ∧
    parsePredictedMissing (mkIncompleteMessage "a:b") ≠ withTrailingPeriod (mcParts "a:b") := by
  refine ⟨by decide, by decide, by decide⟩

/-- C9 (amended): for every incomplete-branch prediction built from a
classifier output with no colon and no whitespace besides spaces, the metric's
parse of the message recovers exactly the comma-separated components with
spaces removed, except that the final element carries a trailing period; hence
when the last component does not also occur earlier in the list, its bare label
is absent from the parsed list (so an expected-missing set containing it cannot
pass the metric's membership test). -/
theorem roundtrip_missing_parts (mc : String)
    (hclean : mc.data.all (fun c => !(c = ':') && (c = ' ' || !(pyIsSpace c))) = true) :
    parsePredictedMissing (mkIncompleteMessage mc) = withTrailingPeriod (mcParts mc) ∧
    (∀ lst : List String, mcParts mc = lst →
        lst.getLastD "" ∉ lst.dropLast →
        lst.getLastD "" ∉ parsePredictedMissing (mkIncompleteMessage mc)) := by
  have hchars := mcParts_chars mc hclean
  have hjo : (joinCommaSpace (mcParts mc)).data = joinCS (splitOnChar ',' (removeSpaces mc).data) := by
    show joinCS (((splitOnChar ',' (removeSpaces mc).data).map String.mk).map String.data) = _
    rw [List.map_map]
    exact congrArg joinCS (List.map_id (splitOnChar ',' (removeSpaces mc).data))
  have hpref : ("The provided text is incomplete. The following components are missing: " : String).data =
      ("The provided text is incomplete. The following components are missing" : String).data
        ++ [':', ' '] := by decide
  have hmsg : (mkIncompleteMessage mc).data =
      ("The provided text is incomplete. The following components are missing" : String).data
        ++ ':' :: ' ' :: (joinCS (splitOnChar ',' (removeSpaces mc).data) ++ ['.']) := by
    have e1 : mkIncompleteMessage mc =
        ("The provided text is incomplete. The following components are missing: "
          ++ joinCommaSpace (mcParts mc)) ++ "." := rfl
    rw [e1, strData_append, strData_append, hjo, hpref]
    simp [List.append_assoc, show ("." : String).data = ['.'] from rfl]
  have hQ : ':' ∉
      ("The provided text is incomplete. The following components are missing" : String).data := by
    decide
  have hnc : ':' ∉ (' ' :: (joinCS (splitOnChar ',' (removeSpaces mc).data) ++ ['.'])) := by
    intro hmem
    rcases List.mem_cons.mp hmem with h1 | h1
    · exact absurd h1 (by decide)
    · rcases List.mem_append.mp h1 with h2 | h2
      · rcases mem_joinCS _ ':' h2 with ⟨p, hp, hcp⟩ | h3 | h3
        · exact (hchars p hp ':' hcp).1 rfl
        · exact absurd h3 (by decide)
        · exact absurd h3 (by decide)
      · exact absurd h2 (by decide)
  have hsplit : splitOnChar ':' (mkIncompleteMessage mc).data =
      [("The provided text is incomplete. The following components are missing" : String).data,
       ' ' :: (joinCS (splitOnChar ',' (removeSpaces mc).data) ++ ['.'])] := by
    rw [hmsg, splitOnChar_append ':' _ _ hQ, splitOnChar_of_not_mem ':' _ hnc]
  have hgl : (pySplitChar ':' (mkIncompleteMessage mc)).getLastD "" =
      String.mk (' ' :: (joinCS (splitOnChar ',' (removeSpaces mc).data) ++ ['.'])) := by
    unfold pySplitChar
    rw [hsplit]
    rfl
  have hstrip : pyStrip (String.mk (' ' :: (joinCS (splitOnChar ',' (removeSpaces mc).data) ++ ['.']))) =
      String.mk (joinCS (splitOnChar ',' (removeSpaces mc).data) ++ ['.']) := by
    show String.mk (pyStripL (' ' :: (joinCS (splitOnChar ',' (removeSpaces mc).data) ++ ['.']))) = _
    rw [pyStripL_space_concl _
      (joinCS_head_not_space _ (fun p hp c hc => (hchars p hp c hc).2))]
  have hsp' : ∀ p ∈ splitOnChar ',' (removeSpaces mc).data, ' ' ∉ p := by
    intro p hp hmem
    exact absurd (hchars p hp ' ' hmem).2 (by decide)
  have hpne : splitOnChar ',' (removeSpaces mc).data ≠ [] := splitOnChar_ne_nil ',' _
  have hmain : parsePredictedMissing (mkIncompleteMessage mc) = withTrailingPeriod (mcParts mc) := by
    unfold parsePredictedMissing
    rw [hgl, hstrip]
    show (splitOnPair ',' ' ' (joinCS (splitOnChar ',' (removeSpaces mc).data) ++ ['.'])).map String.mk = _
    rw [splitCS_joinCS _ hsp' hpne, map_mk_withTrailingPeriodL]
    rfl
  refine ⟨hmain, ?_⟩
  intro lst hlst hnd
  rw [hmain, ← hlst] at *
  rw [← hlst] at hnd
  have hne : mcParts mc ≠ [] := by
    intro h0
    exact hpne (List.map_eq_nil_iff.mp h0)
  rw [← hlst]
  exact not_mem_withTrailingPeriod (mcParts mc) ((mcParts mc).getLastD "") rfl hnd hne

/-- Witness for the amended C9 at the classifier output `"evidence, analysis"`. -/
theorem roundtrip_missing_parts_witness :
    parsePredictedMissing (mkIncompleteMessage "evidence, analysis") =
      withTrailingPeriod (mcParts "evidence, analysis") ∧
    (["evidence", "analysis"] : List String).getLastD "" ∉
      parsePredictedMissing (mkIncompleteMessage "evidence, analysis") :=
  ⟨(roundtrip_missing_parts "evidence, analysis" (by decide)).1,
   (roundtrip_missing_parts "evidence, analysis" (by decide)).2
      ["evidence", "analysis"] (by decide) (by decide)⟩
